import Mathlib

/-!
Verification of the resolverDNS core (src/main.py) against its design
specification.

The core of the program is a recursive DNS resolver:

 * `get_results` (Resolver Core)     — src/main.py lines 26-42
 * `find` (Referral Walker)          — src/main.py lines 45-70
 * `make_request` (transport shim)   — src/main.py lines 73-80
 * `find_recursive` (Recursive Chaser) — src/main.py lines 83-103
 * `get_domain_key` (Name Key Extractor) — src/main.py lines 106-111

The DNS codec and UDP transport are external collaborators (spec §1); they
are modelled by a deterministic oracle `Network` mapping a (name, qtype,
server address) triple to either a parsed `Message` or a transport error.
The global mutable `domain_cache` dictionary is modelled by explicit state
passing of an association list, and every transport query performed is
recorded in an explicit `Trace` so that "server never re-queried / never
consulted" properties are expressible.

The Python functions `find` and `find_recursive` are mutually recursive
with no bound; the embedding adds a fuel parameter consumed exactly at the
entry of `find` and `find_recursive` (loops over lists are structural and
burn no fuel).  A result `none` of the fuel-indexed functions means "no
value is returned normally within that fuel" (in Python: either still
recursing, or an uncaught exception such as the IndexError on an empty
CNAME rrset); `some r` means the Python call returns `r`, where `r` carries
the returned value (`Option Message`), the cache after the call and the
trace after the call.
-/

namespace ResolverDNS

/-- A DNS label.  `dns.name.Name.labels` yields bytes; we use strings. -/
abbrev Label := String

/-- A domain name as in `dns.name.Name`: the ordered list of labels,
an absolute name ending with the empty root label. -/
abbrev Name := List Label

/-- A server address, e.g. "198.41.0.4". -/
abbrev IpAddr := String

/-- Record type code of A records (`dns.rdatatype.A`). -/
def rdA : Nat := 1

/-- Record type code of CNAME records (`dns.rdatatype.CNAME`). -/
def rdCNAME : Nat := 5

/-- Record type code of AAAA records (`dns.rdatatype.AAAA`). -/
def rdAAAA : Nat := 28

/-- One rdata item inside an rrset: its record type code (`rdata.rdtype`)
and its textual rendering (`str(rdata)`): an address for A/AAAA, a target
name for CNAME. -/
structure Rdata where
  rdtype : Nat
  text : String
deriving DecidableEq, Repr

/-- One rrset of a message section (`dns.rrset.RRset`): owner name
(`rrset.name`), record type code (`rrset.rdtype`) and its rdata items. -/
structure RRset where
  name : Name
  rdtype : Nat
  items : List Rdata
deriving DecidableEq, Repr

/-- A parsed DNS message (`dns.message.Message`), restricted to the two
sections the core reads: `answer` and `additional`. -/
structure Message where
  answer : List RRset
  additional : List RRset
deriving DecidableEq, Repr

/-- The transport/codec collaborator: for each (name, qtype, server)
triple, either the parsed reply or a transport-level failure (the
exception's message).  Deterministic: the model of one process run. -/
abbrev Network := Name → Nat → IpAddr → Except String Message

/-- Instrumentation: the sequence of transport queries actually sent,
in order. -/
abbrev Trace := List (Name × Nat × IpAddr)

/-- Inner dictionary of the domain cache: server address to the stored
response (which may be `none`: the recorded transport failure). -/
abbrev ServerCache := List (IpAddr × Option Message)

/-- The global `domain_cache` (src/main.py line 23): TLD key to inner
per-server dictionary. -/
abbrev DomainCache := List (Label × ServerCache)

/-- Result of a fuel-indexed call: `none` if the Python call does not
return normally within the fuel, otherwise the returned `Option Message`
together with the cache and trace after the call. -/
abbrev Res := Option (Option Message × DomainCache × Trace)

/-- The fixed, ordered root server set (src/main.py lines 15-20). -/
def ROOT_SERVERS : List IpAddr :=
  ["198.41.0.4", "199.9.14.201", "192.33.4.12", "199.7.91.13",
   "192.203.230.10", "192.5.5.241", "192.112.36.4", "198.97.190.53",
   "192.36.148.17", "192.58.128.30", "193.0.14.129", "199.7.83.42",
   "202.12.27.33"]

/-- Association-list lookup modelling Python dict lookup (first binding
wins; the code never creates duplicate keys). -/
def alookup {β : Type} (key : String) : List (String × β) → Option β
  | [] => none
  | (k, v) :: rest => if k = key then some v else alookup key rest

/-- Joining labels with dots (the textual rendering of a label list). -/
def joinDots : List String → String
  | [] => ""
  | [l] => l
  | l :: rest => l ++ "." ++ joinDots rest

/-- `str(name)` of the codec collaborator `dns.name.Name`: labels joined
by dots (the trailing root label yields a trailing dot); the root name is
"." and the empty name is "@". -/
def nameToText (name : Name) : String :=
  if name = [] then "@"
  else if name = [""] then "."
  else joinDots name

/-- Splitting a character list on dots (never returns the empty list). -/
def splitDots : List Char → List (List Char)
  | [] => [[]]
  | c :: rest =>
    match splitDots rest with
    | [] => [[]]
    | l :: ls => if c = '.' then [] :: l :: ls else (c :: l) :: ls

/-- `dns.name.from_text` of the codec collaborator: split a textual name
on dots and append the root label when the name does not already end with
a dot. -/
def from_text (s : String) : Name :=
  if s = "" ∨ s = "." then [""]
  else
    let parts := (splitDots s.data).map String.mk
    if parts.getLast? = some "" then parts else parts ++ [""]

/-- src/main.py lines 106-111 (`get_domain_key`): the cache key of a
name — the full textual name when it has fewer than two labels, else the
second-to-last label (`labels[-2]`, the TLD label). -/
def get_domain_key (name : Name) : Label :=
  if name.length < 2 then nameToText name
  else (name[name.length - 2]?).getD ""

/-- Lookup of `domain_cache[domain][server]`: `some v` iff the outer dict
has `domain` and its inner dict has `server` (with stored value `v`). -/
def cache_lookup (cache : DomainCache) (domain : Label) (server : IpAddr) :
    Option (Option Message) :=
  match alookup domain cache with
  | none => none
  | some sc => alookup server sc

/-- `domain_cache[domain][server] = v` (src/main.py line 57): extend the
inner dictionary of `domain` (new binding first, as lookup is
first-binding-wins; the code only writes on a miss). -/
def cache_insert (cache : DomainCache) (domain : Label) (server : IpAddr)
    (v : Option Message) : DomainCache :=
  cache.map (fun e => if e.1 = domain then (e.1, (server, v) :: e.2) else e)

/-- src/main.py lines 73-80 (`make_request`): send the query over the
transport; any exception is swallowed and turned into `None`.  The trace
records that a transport query was sent. -/
def make_request (net : Network) (target : Name) (qtype : Nat) (ip : IpAddr)
    (trace : Trace) : Option Message × Trace :=
  (match net target qtype ip with
   | Except.ok response => some response
   | Except.error _ => none,
   trace ++ [(target, qtype, ip)])

/-- src/main.py lines 52-57: obtain the response for one root server —
use the cached value (also a cached `None`) when present, else query the
transport and store the outcome in the cache. -/
def fetch_response (net : Network) (domain : Label) (target : Name)
    (qtype : Nat) (cache : DomainCache) (trace : Trace) (server : IpAddr) :
    Option Message × DomainCache × Trace :=
  match cache_lookup cache domain server with
  | some response => (response, cache, trace)
  | none =>
    match make_request net target qtype server trace with
    | (response, trace1) =>
      (response, cache_insert cache domain server response, trace1)

/-- src/main.py lines 89-93: scan the answer rrsets; at the first rrset of
type CNAME (when the requested qtype is not CNAME) restart resolution from
the root at the alias target (`find(cname_target, qtype)`, abstracted here
as `ffind`); if no rrset triggers, return the response unchanged (line
94).  `answer[0]` on an empty rrset raises IndexError in Python — no
normal return, hence `none`. -/
def scan_answer (ffind : Name → DomainCache → Trace → Res) (qtype : Nat)
    (resp : Message) (cache : DomainCache) (trace : Trace) :
    List RRset → Res
  | [] => some (some resp, cache, trace)
  | rr :: rest =>
    if rr.rdtype = rdCNAME ∧ qtype ≠ rdCNAME then
      match rr.items with
      | [] => none
      | item :: _ => ffind (from_text item.text) cache trace
    else scan_answer ffind qtype resp cache trace rest

/-- Inner loop of referral chasing (src/main.py lines 66-69 and 99-102):
chase each glue address of one additional rrset in order via `frec`
(a partially applied `find_recursive`); the first chased result that is a
message with non-empty answer wins; `some (none, c, t)` means none of
these items produced an answer. -/
def chase_items (frec : IpAddr → DomainCache → Trace → Res)
    (cache : DomainCache) (trace : Trace) : List Rdata → Res
  | [] => some (none, cache, trace)
  | it :: its =>
    match frec it.text cache trace with
    | none => none
    | some (some m, c, t) =>
      if m.answer = [] then chase_items frec c t its
      else some (some m, c, t)
    | some (none, c, t) => chase_items frec c t its

/-- Outer loop of referral chasing (src/main.py lines 63-65 and 96-98):
iterate the additional rrsets in order, skipping those whose type is not
A, chasing the items of each A rrset depth-first. -/
def chase_rrsets (frec : IpAddr → DomainCache → Trace → Res)
    (cache : DomainCache) (trace : Trace) : List RRset → Res
  | [] => some (none, cache, trace)
  | rr :: rest =>
    if rr.rdtype ≠ rdA then chase_rrsets frec cache trace rest
    else
      match chase_items frec cache trace rr.items with
      | none => none
      | some (some m, c, t) => some (some m, c, t)
      | some (none, c, t) => chase_rrsets frec c t rest

/-- One root-server iteration's decision on a fetched response
(src/main.py lines 59-69): `done r` means `find` returns `r` now, `next`
means fall through to the next root server with the given cache/trace. -/
inductive LoopStep where
  | done (r : Res)
  | next (cache : DomainCache) (trace : Trace)

/-- src/main.py lines 59-69: a `None` response or an empty response falls
through; a response with answer records is returned; a referral is chased
and a successful chase is returned, an unsuccessful one falls through. -/
def respond_step (frec : IpAddr → DomainCache → Trace → Res)
    (response : Option Message) (cache : DomainCache) (trace : Trace) :
    LoopStep :=
  match response with
  | none => LoopStep.next cache trace
  | some resp =>
    if resp.answer = [] then
      if resp.additional = [] then LoopStep.next cache trace
      else
        match chase_rrsets frec cache trace resp.additional with
        | none => LoopStep.done none
        | some (some m, c, t) => LoopStep.done (some (some m, c, t))
        | some (none, c, t) => LoopStep.next c t
    else LoopStep.done (some (some resp, cache, trace))

/-- The root-server loop of `find` (src/main.py lines 52-70): process the
remaining root servers in order; return `some (none, cache, trace)` (the
function's final `return None`) when they are exhausted. -/
def findLoop (net : Network) (frec : IpAddr → DomainCache → Trace → Res)
    (domain : Label) (target : Name) (qtype : Nat)
    (cache : DomainCache) (trace : Trace) : List IpAddr → Res
  | [] => some (none, cache, trace)
  | server :: rest =>
    match fetch_response net domain target qtype cache trace server with
    | (response, cache1, trace1) =>
      match respond_step frec response cache1 trace1 with
      | LoopStep.done r => r
      | LoopStep.next c t => findLoop net frec domain target qtype c t rest

mutual

/-- src/main.py lines 45-70 (`find`): ensure the outer cache dictionary
has the name's TLD key (lines 49-50), then walk the root servers.  Fuel is
consumed at entry; the nested chases run `find_recursive` at the smaller
fuel. -/
def find (net : Network) (fuel : Nat) (cache : DomainCache) (target : Name)
    (qtype : Nat) (trace : Trace) : Res :=
  match fuel with
  | 0 => none
  | f + 1 =>
    let domain := get_domain_key target
    let cache1 :=
      if (alookup domain cache).isNone then (domain, []) :: cache else cache
    findLoop net (fun ip c t => find_recursive net f c target qtype ip t)
      domain target qtype cache1 trace ROOT_SERVERS
termination_by structural fuel

/-- src/main.py lines 83-103 (`find_recursive`): direct uncached query; a
transport failure returns `None`; an answer section is scanned for a CNAME
(restarting `find` from the root on the alias target); a referral is
chased depth-first; otherwise the response itself is returned (line 103),
also when chasing found nothing. -/
def find_recursive (net : Network) (fuel : Nat) (cache : DomainCache)
    (target : Name) (qtype : Nat) (ip : IpAddr) (trace : Trace) : Res :=
  match fuel with
  | 0 => none
  | f + 1 =>
    match make_request net target qtype ip trace with
    | (response, trace1) =>
      match response with
      | none => some (none, cache, trace1)
      | some resp =>
        if resp.answer = [] then
          if resp.additional = [] then some (some resp, cache, trace1)
          else
            match chase_rrsets
                (fun ip2 c t => find_recursive net f c target qtype ip2 t)
                cache trace1 resp.additional with
            | none => none
            | some (some m, c, t) => some (some m, c, t)
            | some (none, c, t) => some (some resp, c, t)
        else
          scan_answer (fun n c t => find net f c n qtype t)
            qtype resp cache trace1 resp.answer
termination_by structural fuel

end

/-- The per-type collection loop of `get_results` (src/main.py lines
33-40): guarded by `if response and response.answer`, collect from every
answer rrset the items whose type matches the requested one, rendered as
(owner name, value) pairs. -/
structure ResultPair where
  name : String
  address : String
deriving DecidableEq, Repr

/-- The dictionary returned by `get_results`: both lists always present. -/
structure ResultSet where
  A : List ResultPair
  AAAA : List ResultPair
deriving DecidableEq, Repr

/-- src/main.py lines 33-40: the records appended for one requested type
from one `find` result. -/
def collect_answers (rdatatype : Nat) (response : Option Message) :
    List ResultPair :=
  match response with
  | none => []
  | some resp =>
    if resp.answer = [] then []
    else
      resp.answer.flatMap (fun answers =>
        (answers.items.filter (fun answer => answer.rdtype = rdatatype)).map
          (fun answer =>
            { name := nameToText answers.name, address := answer.text }))

/-- src/main.py lines 26-42 (`get_results`): resolve A then AAAA for the
name (the second lookup runs against the cache left by the first) and
assemble the result dictionary. -/
def get_results (net : Network) (fuel : Nat) (cache : DomainCache)
    (name : String) (trace : Trace) :
    Option (ResultSet × DomainCache × Trace) :=
  let target_name := from_text name
  match find net fuel cache target_name rdA trace with
  | none => none
  | some (respA, c1, t1) =>
    match find net fuel c1 target_name rdAAAA t1 with
    | none => none
    | some (respAAAA, c2, t2) =>
      some ({ A := collect_answers rdA respA,
              AAAA := collect_answers rdAAAA respAAAA }, c2, t2)

/-- Spec-side definition, following the spec's words (§4.5 Resolver Core):
"for each answer record whose type matches the requested type, append
{name: answerOwnerName, address: answerValue} to the corresponding result
list"; when Locate yields no message the list stays empty. -/
def spec_extract (qtype : Nat) : Option Message → List ResultPair
  | none => []
  | some m =>
    m.answer.flatMap (fun rrset =>
      (rrset.items.filter (fun it => it.rdtype = qtype)).map
        (fun it => { name := nameToText rrset.name, address := it.text }))

/-! ### Concrete networks and messages used by the witnesses -/

/-- A network on which every query fails at the transport level. -/
def allFail : Network := fun _ _ _ => Except.error "timeout"

/-- A message carrying a single A answer record. -/
def ansMsg : Message :=
  { answer := [{ name := ["example", "com", ""], rdtype := rdA,
                 items := [{ rdtype := rdA, text := "93.184.216.34" }] }],
    additional := [] }

/-- A network on which exactly the first root server answers. -/
def okNet : Network := fun _ _ ip =>
  if ip = "198.41.0.4" then Except.ok ansMsg else Except.error "timeout"

/-- A network on which exactly the second root server answers. -/
def okNet2 : Network := fun _ _ ip =>
  if ip = "199.9.14.201" then Except.ok ansMsg else Except.error "timeout"

/-- The message with no records at all. -/
def emptyMsg : Message := { answer := [], additional := [] }

/-- A network on which every server replies with an empty message. -/
def emptyNet : Network := fun _ _ _ => Except.ok emptyMsg

/-- A message whose answer section is a CNAME record. -/
def cnameMsg : Message :=
  { answer := [{ name := ["alias", "com", ""], rdtype := rdCNAME,
                 items := [{ rdtype := rdCNAME, text := "target.org" }] }],
    additional := [] }

/-- A network on which every server replies with a CNAME answer. -/
def cnameNet : Network := fun _ _ _ => Except.ok cnameMsg

/-- A referral message with no answer and one type-A glue record. -/
def referralTo (ip : IpAddr) : Message :=
  { answer := [],
    additional := [{ name := [""], rdtype := rdA,
                     items := [{ rdtype := rdA, text := ip }] }] }

/-- A cyclic referral graph: server 10.0.0.1 refers to 10.0.0.2 and
10.0.0.2 refers back to 10.0.0.1. -/
def cycNet : Network := fun _ _ ip =>
  if ip = "10.0.0.1" then Except.ok (referralTo "10.0.0.2")
  else if ip = "10.0.0.2" then Except.ok (referralTo "10.0.0.1")
  else Except.error "unreachable"

/-- A cache that already has a successful response of the first root
server for the TLD key "com". -/
def cacheW : DomainCache := [("com", [("198.41.0.4", some ansMsg)])]

/-- A cache that records a transport failure of the first root server for
the TLD key "com". -/
def cacheF : DomainCache := [("com", [("198.41.0.4", none)])]

/-! ### C6, C7, C8 -/

/-- C6: every transport-level failure of a query (timeout or any network
error) is converted by `make_request` into the single absent value `none`;
no distinct error kind reaches the Referral Walker or Recursive Chaser —
whatever the error `e` was, the result is the same `none`. -/
theorem C6_transport_failure_is_absent :
    ∀ (net : Network) (target : Name) (qtype : Nat) (ip : IpAddr)
      (trace : Trace) (e : String),
    net target qtype ip = Except.error e →
    make_request net target qtype ip trace =
      (none, trace ++ [(target, qtype, ip)]) := by
  intro net target qtype ip trace e h
  simp [make_request, h]

/-- Witness for C6 at a concrete failing network. -/
theorem C6_transport_failure_is_absent_witness :
    make_request allFail ["a", "b", ""] rdA "198.41.0.4" [] =
      (none, [(["a", "b", ""], rdA, "198.41.0.4")]) :=
  C6_transport_failure_is_absent allFail ["a", "b", ""] rdA "198.41.0.4" []
    "timeout" rfl

/-- C7: a chase response with empty answer and empty additional sections
is returned unchanged by `find_recursive` (a present message with no
records), which is distinguishable from the absent value `none` produced
on transport failure. -/
theorem C7_empty_response_returned_as_is :
    ∀ (net : Network) (fuel : Nat) (cache : DomainCache) (target : Name)
      (qtype : Nat) (ip : IpAddr) (trace : Trace) (resp : Message),
    net target qtype ip = Except.ok resp →
    resp.answer = [] → resp.additional = [] →
    find_recursive net (fuel + 1) cache target qtype ip trace =
      some (some resp, cache, trace ++ [(target, qtype, ip)]) ∧
    (some resp : Option Message) ≠ none := by
  intro net fuel cache target qtype ip trace resp hok hans hadd
  refine ⟨?_, by simp⟩
  simp [find_recursive, make_request, hok, hans, hadd]

/-- Witness for C7 at a concrete network answering with an empty
message. -/
theorem C7_empty_response_returned_as_is_witness :
    find_recursive emptyNet 1 [] ["a", "b", ""] rdA "2.2.2.2" [] =
      some (some emptyMsg, [], [(["a", "b", ""], rdA, "2.2.2.2")]) ∧
    (some emptyMsg : Option Message) ≠ none :=
  C7_empty_response_returned_as_is emptyNet 0 [] ["a", "b", ""] rdA
    "2.2.2.2" [] emptyMsg rfl rfl rfl

/-- C8: the cache-key extractor returns the full textual name when the
name has fewer than two labels, and otherwise the label immediately
preceding the terminal root label (the TLD label). -/
theorem C8_domain_key :
    (∀ name : Name, name.length < 2 → get_domain_key name = nameToText name) ∧
    (∀ (pre : Name) (lab root : Label),
      get_domain_key (pre ++ [lab, root]) = lab) := by
  constructor
  · intro name h
    simp [get_domain_key, h]
  · intro pre lab root
    have hlen : (pre ++ [lab, root]).length = pre.length + 2 := by simp
    have h2 : ¬ (pre ++ [lab, root]).length < 2 := by omega
    rw [get_domain_key, if_neg h2, hlen]
    have : (pre ++ [lab, root])[pre.length + 2 - 2]? = some lab := by
      have h3 : pre.length + 2 - 2 = pre.length := by omega
      rw [h3, List.getElem?_append_right (Nat.le_refl _)]
      simp
    rw [this]
    rfl

/-- Witness for C8: the root name (one label) keys by its text; a
two-or-more-label name keys by the TLD label. -/
theorem C8_domain_key_witness :
    get_domain_key [""] = nameToText [""] ∧
    get_domain_key (["example"] ++ ["com", ""]) = "com" :=
  ⟨C8_domain_key.1 [""] (by decide), C8_domain_key.2 ["example"] "com" ""⟩

/-! ### C4: CNAME restarts from the root -/

/-- Answer rrsets that are not of type CNAME are skipped by the scan. -/
lemma scan_answer_skip (ffind : Name → DomainCache → Trace → Res)
    (qtype : Nat) (resp : Message) :
    ∀ (pre rest : List RRset) (cache : DomainCache) (trace : Trace),
    (∀ rr ∈ pre, rr.rdtype ≠ rdCNAME) →
    scan_answer ffind qtype resp cache trace (pre ++ rest) =
      scan_answer ffind qtype resp cache trace rest := by
  intro pre
  induction pre with
  | nil => intro rest cache trace _; rfl
  | cons rr pre ih =>
    intro rest cache trace h
    have h1 : rr.rdtype ≠ rdCNAME := h rr (by simp)
    rw [List.cons_append, scan_answer, if_neg (by simp [h1])]
    exact ih rest cache trace (fun r hr => h r (by simp [hr]))

/-- C4: if a chase response has an answer section containing a CNAME
record and the requested qtype is not CNAME, `find_recursive` returns the
result of restarting `find` from the root on the alias target of the first
such record, with the same qtype; the only transport query it performs
itself is the one that fetched the response. -/
theorem C4_cname_restarts_from_root :
    ∀ (net : Network) (fuel : Nat) (cache : DomainCache) (target : Name)
      (qtype : Nat) (ip : IpAddr) (trace : Trace) (resp : Message)
      (pre post : List RRset) (cn : RRset) (item : Rdata) (its : List Rdata),
    net target qtype ip = Except.ok resp →
    resp.answer = pre ++ cn :: post →
    (∀ rr ∈ pre, rr.rdtype ≠ rdCNAME) →
    cn.rdtype = rdCNAME → qtype ≠ rdCNAME → cn.items = item :: its →
    find_recursive net (fuel + 1) cache target qtype ip trace =
      find net fuel cache (from_text item.text) qtype
        (trace ++ [(target, qtype, ip)]) := by
  intro net fuel cache target qtype ip trace resp pre post cn item its
    hok hans hpre hcn hq hitems
  have hne : resp.answer ≠ [] := by simp [hans]
  rw [find_recursive]
  simp only [make_request, hok]
  rw [if_neg hne, hans, scan_answer_skip _ _ _ pre _ _ _ hpre, scan_answer,
    if_pos ⟨hcn, hq⟩, hitems]

/-- Witness for C4 at a concrete network whose answer is a CNAME. -/
theorem C4_cname_restarts_from_root_witness :
    find_recursive cnameNet 1 [] ["alias", "com", ""] rdA "1.1.1.1" [] =
      find cnameNet 0 [] (from_text "target.org") rdA
        [(["alias", "com", ""], rdA, "1.1.1.1")] :=
  C4_cname_restarts_from_root cnameNet 0 [] ["alias", "com", ""] rdA
    "1.1.1.1" [] cnameMsg [] []
    { name := ["alias", "com", ""], rdtype := rdCNAME,
      items := [{ rdtype := rdCNAME, text := "target.org" }] }
    { rdtype := rdCNAME, text := "target.org" } []
    rfl rfl (by simp) rfl (by decide) rfl

/-! ### C3: no depth bound — the chase diverges on a referral cycle -/

/-- C3 (refuting the depth bound): on the cyclic referral graph `cycNet`
(10.0.0.1 and 10.0.0.2 referring to each other), `find_recursive` returns
no value for ANY amount of fuel, for every cache, name, qtype and trace:
the source has no depth bound, so the chase recurses indefinitely instead
of returning absent once a configured maximum depth is exceeded. -/
theorem C3_chase_diverges_on_cycle :
    ∀ (fuel : Nat) (cache : DomainCache) (target : Name) (qtype : Nat)
      (trace : Trace),
    find_recursive cycNet fuel cache target qtype "10.0.0.1" trace = none ∧
    find_recursive cycNet fuel cache target qtype "10.0.0.2" trace = none := by
  intro fuel
  induction fuel with
  | zero => intro cache target qtype trace; exact ⟨rfl, rfl⟩
  | succ f ih =>
    intro cache target qtype trace
    constructor
    · rw [find_recursive]
      simp only [make_request, cycNet, referralTo]
      simp [chase_rrsets, chase_items, rdA,
        (ih cache target qtype (trace ++ [(target, qtype, "10.0.0.1")])).2]
    · rw [find_recursive]
      simp only [make_request, cycNet, referralTo]
      simp [chase_rrsets, chase_items, rdA,
        (ih cache target qtype (trace ++ [(target, qtype, "10.0.0.2")])).2,
        (ih cache target qtype (trace ++ [(target, qtype, "10.0.0.2")])).1]

/-! ### C9: the Referral Walker only returns messages with answers -/

/-- A successful item chase always carries a non-empty answer section. -/
lemma chase_items_answer_ne (frec : IpAddr → DomainCache → Trace → Res) :
    ∀ (items : List Rdata) (cache : DomainCache) (trace : Trace)
      (m : Message) (c : DomainCache) (t : Trace),
    chase_items frec cache trace items = some (some m, c, t) →
    m.answer ≠ [] := by
  intro items
  induction items with
  | nil => intro cache trace m c t h; simp [chase_items] at h
  | cons it its ih =>
    intro cache trace m c t h
    rw [chase_items] at h
    split at h
    · exact absurd h (by simp)
    · rename_i m1 c1 t1 heq
      split at h
      · exact ih c1 t1 m c t h
      · rename_i hne
        obtain ⟨h1, h2, h3⟩ := by simpa using h
        subst h1
        exact hne
    · rename_i c1 t1 heq
      exact ih c1 t1 m c t h

/-- A successful rrset chase always carries a non-empty answer section. -/
lemma chase_rrsets_answer_ne (frec : IpAddr → DomainCache → Trace → Res) :
    ∀ (rrsets : List RRset) (cache : DomainCache) (trace : Trace)
      (m : Message) (c : DomainCache) (t : Trace),
    chase_rrsets frec cache trace rrsets = some (some m, c, t) →
    m.answer ≠ [] := by
  intro rrsets
  induction rrsets with
  | nil => intro cache trace m c t h; simp [chase_rrsets] at h
  | cons rr rest ih =>
    intro cache trace m c t h
    rw [chase_rrsets] at h
    split at h
    · exact ih cache trace m c t h
    · split at h
      · exact absurd h (by simp)
      · rename_i m1 c1 t1 heq
        obtain ⟨h1, h2, h3⟩ := by simpa using h
        exact h1 ▸ chase_items_answer_ne frec rr.items cache trace m1 c1 t1 heq
      · rename_i c1 t1 heq
        exact ih c1 t1 m c t h

/-- Whenever one root-server step decides to return a message, that
message has a non-empty answer section. -/
lemma respond_step_done_answer_ne (frec : IpAddr → DomainCache → Trace → Res)
    (response : Option Message) (cache : DomainCache) (trace : Trace)
    (m : Message) (c : DomainCache) (t : Trace) :
    respond_step frec response cache trace =
      LoopStep.done (some (some m, c, t)) →
    m.answer ≠ [] := by
  intro h
  rw [respond_step.eq_def] at h
  split at h
  · exact absurd h (by simp)
  · rename_i resp
    split at h
    · split at h
      · exact absurd h (by simp)
      · split at h
        · exact absurd h (by simp)
        · rename_i m1 c1 t1 heq
          obtain ⟨h1, h2, h3⟩ := by simpa using h
          exact h1 ▸ chase_rrsets_answer_ne frec resp.additional cache trace m1 c1 t1 heq
        · exact absurd h (by simp)
    · rename_i hne
      obtain ⟨h1, h2, h3⟩ := by simpa using h
      exact h1 ▸ hne

/-- A `some`-message result of the root-server loop has a non-empty
answer section. -/
lemma findLoop_answer_ne (net : Network)
    (frec : IpAddr → DomainCache → Trace → Res) (domain : Label)
    (target : Name) (qtype : Nat) :
    ∀ (servers : List IpAddr) (cache : DomainCache) (trace : Trace)
      (m : Message) (c : DomainCache) (t : Trace),
    findLoop net frec domain target qtype cache trace servers =
      some (some m, c, t) →
    m.answer ≠ [] := by
  intro servers
  induction servers with
  | nil => intro cache trace m c t h; simp [findLoop] at h
  | cons server rest ih =>
    intro cache trace m c t h
    rw [findLoop] at h
    rcases hfr : fetch_response net domain target qtype cache trace server with
      ⟨response, cache1, trace1⟩
    rw [hfr] at h
    dsimp only at h
    cases hrs : respond_step frec response cache1 trace1 with
    | done r =>
      rw [hrs] at h
      dsimp only at h
      subst h
      exact respond_step_done_answer_ne frec response cache1 trace1 m c t hrs
    | next c2 t2 =>
      rw [hrs] at h
      dsimp only at h
      exact ih c2 t2 m c t h

/-- C9: whenever the Referral Walker `find` returns a message rather than
absent, that message has a non-empty answer section; a present message
with no records is never propagated out of `find`. -/
theorem C9_walker_returns_only_answers :
    ∀ (net : Network) (fuel : Nat) (cache : DomainCache) (target : Name)
      (qtype : Nat) (trace : Trace) (m : Message) (c : DomainCache)
      (t : Trace),
    find net fuel cache target qtype trace = some (some m, c, t) →
    m.answer ≠ [] := by
  intro net fuel cache target qtype trace m c t h
  cases fuel with
  | zero => simp [find] at h
  | succ f =>
    rw [find] at h
    exact findLoop_answer_ne _ _ _ _ _ _ _ _ _ _ _ h

/-- Witness for C9: the message returned by `find` on `okNet` has a
non-empty answer section. -/
theorem C9_walker_returns_only_answers_witness : ansMsg.answer ≠ [] :=
  C9_walker_returns_only_answers okNet 1 [] ["example", "com", ""] rdA []
    ansMsg [("com", [("198.41.0.4", some ansMsg)])]
    [(["example", "com", ""], rdA, "198.41.0.4")] (by rfl)

/-! ### C5: strictly ordered traversal, first answer wins -/

/-- A `done` decision of a root-server step is either the propagated
no-return or a returned message (never the absent value `none` wrapped in
`some`). -/
lemma respond_step_done_shape (frec : IpAddr → DomainCache → Trace → Res)
    (response : Option Message) (cache : DomainCache) (trace : Trace)
    (r : Res) :
    respond_step frec response cache trace = LoopStep.done r →
    r = none ∨ ∃ m c t, r = some (some m, c, t) := by
  intro h
  rw [respond_step.eq_def] at h
  split at h
  · exact absurd h (by simp)
  · rename_i resp
    split at h
    · split at h
      · exact absurd h (by simp)
      · split at h
        · left
          have h1 : (none : Res) = r := by simpa using h
          exact h1.symm
        · rename_i m1 c1 t1 heq
          right
          have h1 : (some (some m1, c1, t1) : Res) = r := by simpa using h
          exact ⟨m1, c1, t1, h1.symm⟩
        · exact absurd h (by simp)
    · right
      have h1 : (some (some resp, cache, trace) : Res) = r := by simpa using h
      exact ⟨resp, cache, trace, h1.symm⟩

/-- Glue items are chased strictly in their listed order: chasing a
concatenation behaves as chasing the first part and, only when that found
no answer, continuing with the second part from the state the first part
left behind; a first success (or a propagated no-return) is final. -/
lemma chase_items_append (frec : IpAddr → DomainCache → Trace → Res) :
    ∀ (l1 l2 : List Rdata) (cache : DomainCache) (trace : Trace),
    chase_items frec cache trace (l1 ++ l2) =
      match chase_items frec cache trace l1 with
      | none => none
      | some (some m, c, t) => some (some m, c, t)
      | some (none, c, t) => chase_items frec c t l2 := by
  intro l1
  induction l1 with
  | nil => intro l2 cache trace; simp [chase_items]
  | cons it its ih =>
    intro l2 cache trace
    rw [List.cons_append, chase_items, chase_items]
    cases hf : frec it.text cache trace with
    | none => rfl
    | some v =>
      obtain ⟨r1, c1, t1⟩ := v
      cases r1 with
      | none => exact ih l2 c1 t1
      | some m =>
        by_cases ha : m.answer = []
        · simp only [ha, if_pos rfl, if_true]
          exact ih l2 c1 t1
        · simp only [if_neg ha]

/-- Additional rrsets are chased strictly in their listed order, with the
same composition behaviour as `chase_items_append`. -/
lemma chase_rrsets_append (frec : IpAddr → DomainCache → Trace → Res) :
    ∀ (l1 l2 : List RRset) (cache : DomainCache) (trace : Trace),
    chase_rrsets frec cache trace (l1 ++ l2) =
      match chase_rrsets frec cache trace l1 with
      | none => none
      | some (some m, c, t) => some (some m, c, t)
      | some (none, c, t) => chase_rrsets frec c t l2 := by
  intro l1
  induction l1 with
  | nil => intro l2 cache trace; simp [chase_rrsets]
  | cons rr rest ih =>
    intro l2 cache trace
    rw [List.cons_append, chase_rrsets, chase_rrsets]
    by_cases hty : rr.rdtype ≠ rdA
    · simp only [if_pos hty]
      exact ih l2 cache trace
    · simp only [if_neg hty]
      cases hc : chase_items frec cache trace rr.items with
      | none => rfl
      | some v =>
        obtain ⟨r1, c1, t1⟩ := v
        cases r1 with
        | none => exact ih l2 c1 t1
        | some m => rfl

/-- Root servers are tried strictly in their listed order, with the same
composition behaviour: a first returned message is final and later
servers are not consulted (the cache and trace of the composite run are
exactly those of the successful prefix). -/
lemma findLoop_append (net : Network)
    (frec : IpAddr → DomainCache → Trace → Res) (domain : Label)
    (target : Name) (qtype : Nat) :
    ∀ (l1 l2 : List IpAddr) (cache : DomainCache) (trace : Trace),
    findLoop net frec domain target qtype cache trace (l1 ++ l2) =
      match findLoop net frec domain target qtype cache trace l1 with
      | none => none
      | some (some m, c, t) => some (some m, c, t)
      | some (none, c, t) => findLoop net frec domain target qtype c t l2 := by
  intro l1
  induction l1 with
  | nil => intro l2 cache trace; simp [findLoop]
  | cons s rest ih =>
    intro l2 cache trace
    rw [List.cons_append, findLoop, findLoop]
    rcases fetch_response net domain target qtype cache trace s with
      ⟨response, cache1, trace1⟩
    dsimp only
    cases hrs : respond_step frec response cache1 trace1 with
    | done r =>
      rcases respond_step_done_shape frec response cache1 trace1 r hrs with
        h | ⟨m, c, t, h⟩ <;> subst h <;> rfl
    | next c2 t2 => exact ih l2 c2 t2

/-- C5: for every name and qtype the Referral Walker tries the servers of
its list strictly in order and, inside a referral, chases the type-A glue
rrsets and their items depth-first in listed order: running any of the
three loops on a concatenated list equals running the first part and,
exactly when it produced no message with answer records, continuing with
the rest from the state it left; once a message is returned, the later
part contributes nothing — not even a cache or trace change, so no later
root server or additional record is consulted. -/
theorem C5_ordered_first_answer_wins :
    (∀ (net : Network) (frec : IpAddr → DomainCache → Trace → Res)
        (domain : Label) (target : Name) (qtype : Nat)
        (l1 l2 : List IpAddr) (cache : DomainCache) (trace : Trace),
      findLoop net frec domain target qtype cache trace (l1 ++ l2) =
        match findLoop net frec domain target qtype cache trace l1 with
        | none => none
        | some (some m, c, t) => some (some m, c, t)
        | some (none, c, t) => findLoop net frec domain target qtype c t l2) ∧
    (∀ (frec : IpAddr → DomainCache → Trace → Res) (l1 l2 : List RRset)
        (cache : DomainCache) (trace : Trace),
      chase_rrsets frec cache trace (l1 ++ l2) =
        match chase_rrsets frec cache trace l1 with
        | none => none
        | some (some m, c, t) => some (some m, c, t)
        | some (none, c, t) => chase_rrsets frec c t l2) ∧
    (∀ (frec : IpAddr → DomainCache → Trace → Res) (l1 l2 : List Rdata)
        (cache : DomainCache) (trace : Trace),
      chase_items frec cache trace (l1 ++ l2) =
        match chase_items frec cache trace l1 with
        | none => none
        | some (some m, c, t) => some (some m, c, t)
        | some (none, c, t) => chase_items frec c t l2) :=
  ⟨fun net frec domain target qtype l1 l2 cache trace =>
      findLoop_append net frec domain target qtype l1 l2 cache trace,
   fun frec l1 l2 cache trace => chase_rrsets_append frec l1 l2 cache trace,
   fun frec l1 l2 cache trace => chase_items_append frec l1 l2 cache trace⟩

/-! ### C2: cache entries are written at most once -/

/-- Inserting under one TLD key leaves lookups of other keys unchanged. -/
lemma alookup_cache_insert_ne (d d' : Label) (s' : IpAddr)
    (r : Option Message) (hne : d ≠ d') :
    ∀ c : DomainCache, alookup d (cache_insert c d' s' r) = alookup d c := by
  intro c
  induction c with
  | nil => rfl
  | cons e rest ih =>
    obtain ⟨k, sc⟩ := e
    simp only [cache_insert, List.map_cons] at ih ⊢
    by_cases hk : k = d'
    · have hkd : k ≠ d := by rw [hk]; exact fun h => hne h.symm
      rw [if_pos hk, alookup, alookup, if_neg hkd, if_neg hkd]
      exact ih
    · rw [if_neg hk]
      by_cases hkd : k = d
      · rw [alookup, alookup, if_pos hkd, if_pos hkd]
      · rw [alookup, alookup, if_neg hkd, if_neg hkd]
        exact ih

/-- Inserting under a TLD key prepends the new binding to that key's
inner dictionary (on its first entry). -/
lemma alookup_cache_insert_self (d : Label) (s' : IpAddr)
    (r : Option Message) :
    ∀ c : DomainCache, alookup d (cache_insert c d s' r) =
      (alookup d c).map (fun sc => (s', r) :: sc) := by
  intro c
  induction c with
  | nil => rfl
  | cons e rest ih =>
    obtain ⟨k, sc⟩ := e
    simp only [cache_insert, List.map_cons] at ih ⊢
    by_cases hk : k = d
    · rw [if_pos hk, alookup, alookup, if_pos hk, if_pos hk]
      rfl
    · rw [if_neg hk, alookup, alookup, if_neg hk, if_neg hk]
      exact ih

/-- The write performed on a cache miss preserves every entry already
present (the code only writes entries that were absent). -/
lemma cache_lookup_insert_pres (c : DomainCache) (d' : Label) (s' : IpAddr)
    (r : Option Message) (hmiss : cache_lookup c d' s' = none) :
    ∀ (d : Label) (s : IpAddr) (v : Option Message),
    cache_lookup c d s = some v →
    cache_lookup (cache_insert c d' s' r) d s = some v := by
  intro d s v hv
  by_cases hd : d = d'
  · subst hd
    cases halo : alookup d c with
    | none => simp [cache_lookup, halo] at hv
    | some sc =>
      simp only [cache_lookup, halo] at hv hmiss
      have hss : s' ≠ s := by
        intro hss
        rw [hss, hv] at hmiss
        exact absurd hmiss (by simp)
      rw [cache_lookup, alookup_cache_insert_self, halo]
      simp [alookup, hss, hv]
  · rw [cache_lookup, alookup_cache_insert_ne d d' s' r hd]
    exact hv

/-- Creating the empty inner dictionary for a missing TLD key preserves
every entry already present. -/
lemma cache_lookup_init_pres (cache : DomainCache) (domain : Label)
    (hnone : (alookup domain cache).isNone = true) (d : Label) (s : IpAddr)
    (v : Option Message) (hv : cache_lookup cache d s = some v) :
    cache_lookup ((domain, []) :: cache) d s = some v := by
  by_cases hd : domain = d
  · subst hd
    rw [cache_lookup, Option.isNone_iff_eq_none.mp hnone] at hv
    exact absurd hv (by simp)
  · rw [cache_lookup, alookup, if_neg hd]
    exact hv

/-- The result of a call preserves every cache entry present before it. -/
def CachePres (res : Res) (cache : DomainCache) : Prop :=
  ∀ r c' t', res = some (r, c', t') →
    ∀ (d : Label) (s : IpAddr) (v : Option Message),
    cache_lookup cache d s = some v → cache_lookup c' d s = some v

/-- Fetching one root server's response preserves existing entries. -/
lemma fetch_response_pres (net : Network) (domain : Label) (target : Name)
    (qtype : Nat) (cache : DomainCache) (trace : Trace) (server : IpAddr)
    (response : Option Message) (cache1 : DomainCache) (trace1 : Trace) :
    fetch_response net domain target qtype cache trace server =
      (response, cache1, trace1) →
    ∀ (d : Label) (s : IpAddr) (v : Option Message),
    cache_lookup cache d s = some v → cache_lookup cache1 d s = some v := by
  intro h d s v hv
  rw [fetch_response.eq_def] at h
  split at h
  · obtain ⟨h1, h2, h3⟩ := by simpa using h
    exact h2 ▸ hv
  · rename_i hmiss
    simp only [make_request] at h
    obtain ⟨h1, h2, h3⟩ := by simpa using h
    exact h2 ▸ cache_lookup_insert_pres cache domain server _ hmiss d s v hv

/-- Chasing the items of one glue rrset preserves existing entries,
provided every single chase does. -/
lemma chase_items_pres (frec : IpAddr → DomainCache → Trace → Res)
    (hfrec : ∀ ip c t, CachePres (frec ip c t) c) :
    ∀ (items : List Rdata) (cache : DomainCache) (trace : Trace),
    CachePres (chase_items frec cache trace items) cache := by
  intro items
  induction items with
  | nil =>
    intro cache trace r c' t' h d s v hv
    obtain ⟨h1, h2, h3⟩ := by simpa [chase_items] using h
    exact h2 ▸ hv
  | cons it its ih =>
    intro cache trace r c' t' h d s v hv
    rw [chase_items] at h
    split at h
    · exact absurd h (by simp)
    · rename_i m1 c1 t1 heq
      have hp := hfrec it.text cache trace (some m1) c1 t1 heq d s v hv
      split at h
      · exact ih c1 t1 r c' t' h d s v hp
      · obtain ⟨h1, h2, h3⟩ := by simpa using h
        exact h2 ▸ hp
    · rename_i c1 t1 heq
      have hp := hfrec it.text cache trace none c1 t1 heq d s v hv
      exact ih c1 t1 r c' t' h d s v hp

/-- Chasing the additional rrsets preserves existing entries. -/
lemma chase_rrsets_pres (frec : IpAddr → DomainCache → Trace → Res)
    (hfrec : ∀ ip c t, CachePres (frec ip c t) c) :
    ∀ (rrsets : List RRset) (cache : DomainCache) (trace : Trace),
    CachePres (chase_rrsets frec cache trace rrsets) cache := by
  intro rrsets
  induction rrsets with
  | nil =>
    intro cache trace r c' t' h d s v hv
    obtain ⟨h1, h2, h3⟩ := by simpa [chase_rrsets] using h
    exact h2 ▸ hv
  | cons rr rest ih =>
    intro cache trace r c' t' h d s v hv
    rw [chase_rrsets] at h
    split at h
    · exact ih cache trace r c' t' h d s v hv
    · split at h
      · exact absurd h (by simp)
      · rename_i m1 c1 t1 heq
        have hp := chase_items_pres frec hfrec rr.items cache trace
          (some m1) c1 t1 heq d s v hv
        obtain ⟨h1, h2, h3⟩ := by simpa using h
        exact h2 ▸ hp
      · rename_i c1 t1 heq
        have hp := chase_items_pres frec hfrec rr.items cache trace
          none c1 t1 heq d s v hv
        exact ih c1 t1 r c' t' h d s v hp

/-- The answer-section scan preserves existing entries, provided the
restarted walk does. -/
lemma scan_answer_pres (ffind : Name → DomainCache → Trace → Res)
    (hffind : ∀ n c t, CachePres (ffind n c t) c) (qtype : Nat)
    (resp : Message) :
    ∀ (rrsets : List RRset) (cache : DomainCache) (trace : Trace),
    CachePres (scan_answer ffind qtype resp cache trace rrsets) cache := by
  intro rrsets
  induction rrsets with
  | nil =>
    intro cache trace r c' t' h d s v hv
    obtain ⟨h1, h2, h3⟩ := by simpa [scan_answer] using h
    exact h2 ▸ hv
  | cons rr rest ih =>
    intro cache trace r c' t' h d s v hv
    rw [scan_answer] at h
    split at h
    · split at h
      · exact absurd h (by simp)
      · exact hffind _ cache trace r c' t' h d s v hv
    · exact ih cache trace r c' t' h d s v hv

/-- One root-server step preserves existing entries, in both its `done`
and its `next` outcome. -/
lemma respond_step_pres (frec : IpAddr → DomainCache → Trace → Res)
    (hfrec : ∀ ip c t, CachePres (frec ip c t) c)
    (response : Option Message) (cache : DomainCache) (trace : Trace) :
    (∀ r1 c' t',
      respond_step frec response cache trace = LoopStep.done (some (r1, c', t')) →
      ∀ (d : Label) (s : IpAddr) (v : Option Message),
      cache_lookup cache d s = some v → cache_lookup c' d s = some v) ∧
    (∀ c' t',
      respond_step frec response cache trace = LoopStep.next c' t' →
      ∀ (d : Label) (s : IpAddr) (v : Option Message),
      cache_lookup cache d s = some v → cache_lookup c' d s = some v) := by
  constructor
  · intro r1 c' t' h d s v hv
    rw [respond_step.eq_def] at h
    split at h
    · exact absurd h (by simp)
    · rename_i resp
      split at h
      · split at h
        · exact absurd h (by simp)
        · split at h
          · exact absurd h (by simp)
          · rename_i m1 c1 t1 heq
            have hp := chase_rrsets_pres frec hfrec resp.additional cache
              trace (some m1) c1 t1 heq d s v hv
            obtain ⟨h1, h2, h3⟩ := by simpa using h
            exact h2 ▸ hp
          · exact absurd h (by simp)
      · obtain ⟨h1, h2, h3⟩ := by simpa using h
        exact h2 ▸ hv
  · intro c' t' h d s v hv
    rw [respond_step.eq_def] at h
    split at h
    · obtain ⟨h1, h2⟩ := by simpa using h
      exact h1 ▸ hv
    · rename_i resp
      split at h
      · split at h
        · obtain ⟨h1, h2⟩ := by simpa using h
          exact h1 ▸ hv
        · split at h
          · exact absurd h (by simp)
          · exact absurd h (by simp)
          · rename_i c1 t1 heq
            have hp := chase_rrsets_pres frec hfrec resp.additional cache
              trace none c1 t1 heq d s v hv
            obtain ⟨h1, h2⟩ := by simpa using h
            exact h1 ▸ hp
      · exact absurd h (by simp)

/-- The whole root-server loop preserves existing entries. -/
lemma findLoop_pres (net : Network)
    (frec : IpAddr → DomainCache → Trace → Res)
    (hfrec : ∀ ip c t, CachePres (frec ip c t) c) (domain : Label)
    (target : Name) (qtype : Nat) :
    ∀ (servers : List IpAddr) (cache : DomainCache) (trace : Trace),
    CachePres (findLoop net frec domain target qtype cache trace servers)
      cache := by
  intro servers
  induction servers with
  | nil =>
    intro cache trace r c' t' h d s v hv
    obtain ⟨h1, h2, h3⟩ := by simpa [findLoop] using h
    exact h2 ▸ hv
  | cons server rest ih =>
    intro cache trace r c' t' h d s v hv
    rw [findLoop] at h
    rcases hfr : fetch_response net domain target qtype cache trace server
      with ⟨response, cache1, trace1⟩
    rw [hfr] at h
    dsimp only at h
    have hv1 : cache_lookup cache1 d s = some v :=
      fetch_response_pres net domain target qtype cache trace server
        response cache1 trace1 hfr d s v hv
    cases hrs : respond_step frec response cache1 trace1 with
    | done r2 =>
      rw [hrs] at h
      dsimp only at h
      subst h
      exact (respond_step_pres frec hfrec response cache1 trace1).1
        r c' t' hrs d s v hv1
    | next c2 t2 =>
      rw [hrs] at h
      dsimp only at h
      have hv2 := (respond_step_pres frec hfrec response cache1 trace1).2
        c2 t2 hrs d s v hv1
      exact ih c2 t2 r c' t' h d s v hv2

/-- Both `find` and `find_recursive` preserve every cache entry present
before the call, at every fuel. -/
lemma find_pres_fuel : ∀ fuel : Nat,
    (∀ (net : Network) (cache : DomainCache) (target : Name) (qtype : Nat)
        (trace : Trace),
      CachePres (find net fuel cache target qtype trace) cache) ∧
    (∀ (net : Network) (cache : DomainCache) (target : Name) (qtype : Nat)
        (ip : IpAddr) (trace : Trace),
      CachePres (find_recursive net fuel cache target qtype ip trace) cache) := by
  intro fuel
  induction fuel with
  | zero =>
    constructor
    · intro net cache target qtype trace r c' t' h
      exact absurd h (by simp [find])
    · intro net cache target qtype ip trace r c' t' h
      exact absurd h (by simp [find_recursive])
  | succ f ih =>
    constructor
    · intro net cache target qtype trace r c' t' h d s v hv
      simp only [find] at h
      have hfrec : ∀ ip c t,
          CachePres (find_recursive net f c target qtype ip t) c :=
        fun ip c t => ih.2 net c target qtype ip t
      by_cases hc : (alookup (get_domain_key target) cache).isNone = true
      · rw [if_pos hc] at h
        exact findLoop_pres net _ hfrec _ target qtype ROOT_SERVERS
          _ trace r c' t' h d s v
          (cache_lookup_init_pres cache _ hc d s v hv)
      · rw [if_neg hc] at h
        exact findLoop_pres net _ hfrec _ target qtype ROOT_SERVERS
          cache trace r c' t' h d s v hv
    · intro net cache target qtype ip trace r c' t' h d s v hv
      rw [find_recursive] at h
      simp only [make_request] at h
      cases hn : net target qtype ip with
      | error e =>
        rw [hn] at h
        dsimp only at h
        obtain ⟨h1, h2, h3⟩ := by simpa using h
        exact h2 ▸ hv
      | ok resp =>
        rw [hn] at h
        dsimp only at h
        split at h
        · split at h
          · obtain ⟨h1, h2, h3⟩ := by simpa using h
            exact h2 ▸ hv
          · have hfrec : ∀ ip2 c t,
                CachePres (find_recursive net f c target qtype ip2 t) c :=
              fun ip2 c t => ih.2 net c target qtype ip2 t
            split at h
            · exact absurd h (by simp)
            · rename_i m1 c1 t1 heq
              have hp := chase_rrsets_pres _ hfrec resp.additional cache
                _ (some m1) c1 t1 heq d s v hv
              obtain ⟨h1, h2, h3⟩ := by simpa using h
              exact h2 ▸ hp
            · rename_i c1 t1 heq
              have hp := chase_rrsets_pres _ hfrec resp.additional cache
                _ none c1 t1 heq d s v hv
              obtain ⟨h1, h2, h3⟩ := by simpa using h
              exact h2 ▸ hp
        · have hffind : ∀ n c t,
              CachePres (find net f c n qtype t) c :=
            fun n c t => ih.1 net c n qtype t
          exact scan_answer_pres _ hffind qtype resp resp.answer cache
            _ r c' t' h d s v hv

/-- A root server whose cache entry records a transport failure is
skipped: no query, no cache or trace change, continue with the rest. -/
lemma findLoop_cached_failure (net : Network)
    (frec : IpAddr → DomainCache → Trace → Res) (domain : Label)
    (target : Name) (qtype : Nat) (cache : DomainCache) (trace : Trace)
    (s : IpAddr) (rest : List IpAddr)
    (h : cache_lookup cache domain s = some none) :
    findLoop net frec domain target qtype cache trace (s :: rest) =
      findLoop net frec domain target qtype cache trace rest := by
  rw [findLoop, fetch_response.eq_def, h]
  rfl

/-- A root server whose cache entry records a response with answer
records yields exactly that response, with no query and no cache or trace
change. -/
lemma findLoop_cached_answer (net : Network)
    (frec : IpAddr → DomainCache → Trace → Res) (domain : Label)
    (target : Name) (qtype : Nat) (cache : DomainCache) (trace : Trace)
    (s : IpAddr) (rest : List IpAddr) (resp : Message)
    (h : cache_lookup cache domain s = some (some resp))
    (hans : resp.answer ≠ []) :
    findLoop net frec domain target qtype cache trace (s :: rest) =
      some (some resp, cache, trace) := by
  rw [findLoop, fetch_response.eq_def, h]
  dsimp only
  rw [respond_step.eq_def]
  dsimp only
  rw [if_neg hans]

/-- C2: a Domain Cache entry is written at most once — (1) every entry
present before a `find` call is still present, with the same value, after
it; (2) a root server whose entry records a transport failure is skipped
without being re-queried (same cache, same trace, continue with the next
server); (3) a root server whose entry records a response with answer
records yields exactly that first-observed response again, with cache and
trace untouched. -/
theorem C2_cache_write_once :
    (∀ (net : Network) (fuel : Nat) (cache : DomainCache) (target : Name)
        (qtype : Nat) (trace : Trace) (r : Option Message)
        (c' : DomainCache) (t' : Trace) (d : Label) (s : IpAddr)
        (v : Option Message),
      find net fuel cache target qtype trace = some (r, c', t') →
      cache_lookup cache d s = some v → cache_lookup c' d s = some v) ∧
    (∀ (net : Network) (frec : IpAddr → DomainCache → Trace → Res)
        (domain : Label) (target : Name) (qtype : Nat)
        (cache : DomainCache) (trace : Trace) (s : IpAddr)
        (rest : List IpAddr),
      cache_lookup cache domain s = some none →
      findLoop net frec domain target qtype cache trace (s :: rest) =
        findLoop net frec domain target qtype cache trace rest) ∧
    (∀ (net : Network) (frec : IpAddr → DomainCache → Trace → Res)
        (domain : Label) (target : Name) (qtype : Nat)
        (cache : DomainCache) (trace : Trace) (s : IpAddr)
        (rest : List IpAddr) (resp : Message),
      cache_lookup cache domain s = some (some resp) → resp.answer ≠ [] →
      findLoop net frec domain target qtype cache trace (s :: rest) =
        some (some resp, cache, trace)) := by
  refine ⟨?_, ?_, ?_⟩
  · intro net fuel cache target qtype trace r c' t' d s v h hv
    exact (find_pres_fuel fuel).1 net cache target qtype trace r c' t' h
      d s v hv
  · intro net frec domain target qtype cache trace s rest h
    exact findLoop_cached_failure net frec domain target qtype cache trace
      s rest h
  · intro net frec domain target qtype cache trace s rest resp h hans
    exact findLoop_cached_answer net frec domain target qtype cache trace
      s rest resp h hans

/-- A trivial chase stub used to instantiate loop-level statements. -/
def frecStub : IpAddr → DomainCache → Trace → Res :=
  fun _ c t => some (none, c, t)

/-- Witness for C2: on a cache recording a transport failure of the first
root server for "com", a later walk (1) keeps that failure entry, (2) the
failed server is skipped without a query, and (3) a recorded successful
response is returned as-is. -/
theorem C2_cache_write_once_witness :
    cache_lookup
      [("com", [("199.9.14.201", some ansMsg), ("198.41.0.4", none)])]
      "com" "198.41.0.4" = some none ∧
    findLoop okNet2 frecStub "com" ["a", "com", ""] rdA cacheF []
        ["198.41.0.4"] =
      findLoop okNet2 frecStub "com" ["a", "com", ""] rdA cacheF [] [] ∧
    findLoop okNet frecStub "com" ["b", "com", ""] rdAAAA cacheW []
        ["198.41.0.4"] = some (some ansMsg, cacheW, []) :=
  ⟨C2_cache_write_once.1 okNet2 1 cacheF ["a", "com", ""] rdA []
      (some ansMsg)
      [("com", [("199.9.14.201", some ansMsg), ("198.41.0.4", none)])]
      [(["a", "com", ""], rdA, "199.9.14.201")] "com" "198.41.0.4" none
      (by rfl) (by rfl),
   C2_cache_write_once.2.1 okNet2 frecStub "com" ["a", "com", ""] rdA
      cacheF [] "198.41.0.4" [] (by rfl),
   C2_cache_write_once.2.2 okNet frecStub "com" ["b", "com", ""] rdAAAA
      cacheW [] "198.41.0.4" [] ansMsg (by rfl) (by simp [ansMsg])⟩

/-! ### C10: the cache key carries no record type -/

/-- C10: the Domain Cache key is (TLD label, root server) with no record
type, so a root response cached earlier (e.g. during an A lookup) is
returned unchanged by a later `find` for ANY name with the same TLD key
and ANY qtype — here for the first root server: the walk returns the
cached response with cache and trace untouched, i.e. without sending any
transport query. -/
theorem C10_cache_key_ignores_qtype :
    ∀ (net : Network) (fuel : Nat) (cache : DomainCache) (target : Name)
      (qtype : Nat) (trace : Trace) (resp : Message),
    cache_lookup cache (get_domain_key target) "198.41.0.4" =
      some (some resp) →
    resp.answer ≠ [] →
    find net (fuel + 1) cache target qtype trace =
      some (some resp, cache, trace) := by
  intro net fuel cache target qtype trace resp h hans
  obtain ⟨sc, hsc⟩ : ∃ sc, alookup (get_domain_key target) cache = some sc := by
    cases halo : alookup (get_domain_key target) cache with
    | none =>
      rw [cache_lookup, halo] at h
      exact absurd h (by simp)
    | some sc => exact ⟨sc, rfl⟩
  simp only [find]
  rw [if_neg (by simp [hsc])]
  rw [show ROOT_SERVERS = "198.41.0.4" ::
    ["199.9.14.201", "192.33.4.12", "199.7.91.13", "192.203.230.10",
     "192.5.5.241", "192.112.36.4", "198.97.190.53", "192.36.148.17",
     "192.58.128.30", "193.0.14.129", "199.7.83.42", "202.12.27.33"]
    from rfl]
  exact findLoop_cached_answer net _ _ target qtype cache trace
    "198.41.0.4" _ resp h hans

/-- Witness for C10: the response cached by an A lookup for key "com" is
returned unchanged for an AAAA lookup of a different name under "com",
with no transport query. -/
theorem C10_cache_key_ignores_qtype_witness :
    find okNet 1 cacheW ["b", "com", ""] rdAAAA [] =
      some (some ansMsg, cacheW, []) :=
  C10_cache_key_ignores_qtype okNet 0 cacheW ["b", "com", ""] rdAAAA []
    ansMsg (by rfl) (by simp [ansMsg])

/-! ### C1: the Resolver Core assembles both lists by type -/

/-- The source's guarded collection loop computes exactly the spec-side
extraction. -/
lemma collect_answers_eq_spec (qtype : Nat) (response : Option Message) :
    collect_answers qtype response = spec_extract qtype response := by
  cases response with
  | none => rfl
  | some m =>
    by_cases h : m.answer = []
    · simp [collect_answers, spec_extract, h]
    · simp [collect_answers, spec_extract, h]

/-- C1: `get_results` returns a ResultSet with both an A and an AAAA
list, where each list holds exactly the matching-type answer records of
the corresponding `find` result, rendered as (owner name, value) pairs —
and when a `find` yields no answer the corresponding list is empty, the
result being an ordinary ResultSet, never an error value. -/
theorem C1_resolve_assembles_by_type :
    (∀ (net : Network) (fuel : Nat) (cache : DomainCache) (name : String)
        (trace : Trace) (ra rb : Option Message) (c1 c2 : DomainCache)
        (t1 t2 : Trace),
      find net fuel cache (from_text name) rdA trace = some (ra, c1, t1) →
      find net fuel c1 (from_text name) rdAAAA t1 = some (rb, c2, t2) →
      get_results net fuel cache name trace =
        some ({ A := spec_extract rdA ra, AAAA := spec_extract rdAAAA rb },
          c2, t2)) ∧
    (∀ qtype : Nat, spec_extract qtype none = []) := by
  constructor
  · intro net fuel cache name trace ra rb c1 c2 t1 t2 h1 h2
    simp only [get_results, h1, h2, collect_answers_eq_spec]
  · intro qtype
    rfl

/-- Witness for C1: on `okNet`, the A lookup gets `ansMsg` from the first
root server, the AAAA lookup is answered by the cached A response (whose
records do not match AAAA), and the ResultSet holds the A record and an
empty AAAA list. -/
theorem C1_resolve_assembles_by_type_witness :
    get_results okNet 1 [] "example.com" [] =
      some ({ A := spec_extract rdA (some ansMsg),
              AAAA := spec_extract rdAAAA (some ansMsg) },
        [("com", [("198.41.0.4", some ansMsg)])],
        [(["example", "com", ""], rdA, "198.41.0.4")]) :=
  C1_resolve_assembles_by_type.1 okNet 1 [] "example.com" []
    (some ansMsg) (some ansMsg)
    [("com", [("198.41.0.4", some ansMsg)])]
    [("com", [("198.41.0.4", some ansMsg)])]
    [(["example", "com", ""], rdA, "198.41.0.4")]
    [(["example", "com", ""], rdA, "198.41.0.4")]
    (by rfl) (by rfl)

end ResolverDNS
